import Mathlib

/-!
Shallow embedding of the `notify` repository's deduplication ledger
(`internal/util/store.go`), fetch orchestrator (`pkg/github/github.go`)
and rate-governed dispatch layer (`pkg/notifier/notifier.go`,
`pkg/notifier/dingtalk/dingtalk.go`, `pkg/notifier/telegram/telegram.go`),
together with proofs of the spec's testable properties.

Modelling conventions:
* Go `map[string]ReleaseState` becomes an association list with
  Go-map insert/lookup semantics (`mapLookup`, `mapInsert`).
* Timestamps are naturals (ledger, governor) or integers (publish times);
  only their ordering matters to the code.
* The state file on disk is modelled as `Option StateMap`: `none` means the
  file does not exist, `some m` means the file holds the JSON snapshot of
  map `m`.  JSON (de)serialisation of the map is abstracted as the identity
  on the map, which is exactly what `encoding/json` round-trips here.
* Failure of `json.MarshalIndent` / `os.WriteFile` during a commit is
  injected through a `PersistOutcome` parameter, mirroring the two error
  branches of `StateStore.CheckAndUpdateIfNew`.
* `sync.Mutex`-protected operations execute their whole body inside one
  critical section, so a set of concurrent calls is modelled as the
  sequential execution of those calls in some order.
-/

namespace NotifySpec

/-- Embedding of `util.ReleaseState` (store.go): the per-repository record. -/
structure ReleaseState where
  owner : String
  repository : String
  latestTag : String
  lastNotified : Nat
  deriving DecidableEq, Repr

/-- The in-memory `states map[string]ReleaseState` of `util.StateStore`,
as an association list with at most one binding per key. -/
abbrev StateMap := List (String × ReleaseState)

/-- Go map read `states[key]`. -/
def mapLookup : StateMap → String → Option ReleaseState
  | [], _ => none
  | (k, v) :: rest, key => if k = key then some v else mapLookup rest key

/-- Go map write `states[key] = v` (replaces an existing binding). -/
def mapInsert : StateMap → String → ReleaseState → StateMap
  | [], key, v => [(key, v)]
  | (k, w) :: rest, key, v =>
    if k = key then (key, v) :: rest else (k, w) :: mapInsert rest key v

/-- Embedding of `util.getKey` (store.go:86): `fmt.Sprintf("%s/%s", owner, repo)`. -/
def getKey (owner repo : String) : String := owner ++ "/" ++ repo

/-- Embedding of `StateStore.GetLatestTag` (store.go:91): the stored tag for
the key, or `""` when no record exists. -/
def GetLatestTag (states : StateMap) (owner repo : String) : String :=
  match mapLookup states (getKey owner repo) with
  | some state => state.latestTag
  | none => ""

/-- Embedding of `StateStore.IsNewRelease` (store.go:120):
`currentTag == "" || currentTag != tag`. -/
def IsNewRelease (states : StateMap) (owner repo tag : String) : Bool :=
  let currentTag := GetLatestTag states owner repo
  currentTag == "" || currentTag != tag

/-- The disk image of the state file: `none` = file absent. -/
abbrev Disk := Option StateMap

/-- Outcome oracle for the persistence step of a commit:
`ok` = marshal and write both succeed, `marshalErr` = `json.MarshalIndent`
fails, `writeErr` = `os.WriteFile` fails. -/
inductive PersistOutcome where
  | ok
  | marshalErr
  | writeErr
  deriving DecidableEq, Repr

/-- Result of `StateStore.CheckAndUpdateIfNew`: the returned pair
`(isNew, err)` plus the post-states of memory and disk. -/
structure CheckResult where
  isNew : Bool
  err : Option String
  states : StateMap
  disk : Disk
  deriving DecidableEq, Repr

/-- The guard `exists && currentState.LatestTag == tag` of
store.go:136-141. -/
def tagUnchanged (states : StateMap) (key tag : String) : Bool :=
  match mapLookup states key with
  | some currentState => currentState.latestTag == tag
  | none => false

/-- Embedding of `StateStore.CheckAndUpdateIfNew` (store.go:129-171).
Inside one critical section: if a record exists with the same tag, return
`(false, nil)` without touching anything; otherwise update the in-memory
record and then persist, where a marshal failure returns `(false, err)`
leaving the disk untouched, a write failure returns `(true, nil)` (the
error is only logged, store.go:165-166) leaving the disk untouched, and
success rewrites the file with the new snapshot. -/
def CheckAndUpdateIfNew (po : PersistOutcome) (states : StateMap) (disk : Disk)
    (owner repo tag : String) (now : Nat) : CheckResult :=
  let key := getKey owner repo
  if tagUnchanged states key tag then
    { isNew := false, err := none, states := states, disk := disk }
  else
    let newStates := mapInsert states key
      { owner := owner, repository := repo, latestTag := tag, lastNotified := now }
    match po with
    | .marshalErr =>
      { isNew := false, err := some "序列化状态失败", states := newStates, disk := disk }
    | .writeErr =>
      { isNew := true, err := none, states := newStates, disk := disk }
    | .ok =>
      { isNew := true, err := none, states := newStates, disk := some newStates }

/-- Embedding of `util.NewStateStore` (store.go:28-57) for a fixed store
path: if the state file exists it is loaded into the in-memory map,
otherwise the map starts empty. -/
def NewStateStore (disk : Disk) : StateMap :=
  match disk with
  | some m => m
  | none => []

/-- Embedding of `StateStore.UpdateState` (store.go:104-117) with a
successful save: insert the record, then rewrite the file. -/
def UpdateState (states : StateMap) (owner repo tag : String) (now : Nat) :
    StateMap × Disk :=
  let newStates := mapInsert states (getKey owner repo)
    { owner := owner, repository := repo, latestTag := tag, lastNotified := now }
  (newStates, some newStates)

/-- Sequentialisation of `n` calls to `CheckAndUpdateIfNew` with identical
arguments and successful persistence (the method body runs under
`s.mu.Lock()`, so any concurrent execution of the `n` calls is one of
these sequential runs, and as the calls are identical they are all this
one).  Returns the list of `isNew` results in execution order and the
final memory/disk state. -/
def runSame (owner repo tag : String) (now : Nat) :
    Nat → StateMap → Disk → List Bool × StateMap × Disk
  | 0, states, disk => ([], states, disk)
  | n + 1, states, disk =>
    let res := CheckAndUpdateIfNew .ok states disk owner repo tag now
    let rest := runSame owner repo tag now n res.states res.disk
    (res.isNew :: rest.1, rest.2)

theorem mapLookup_insert_self (m : StateMap) (k : String) (v : ReleaseState) :
    mapLookup (mapInsert m k v) k = some v := by
  induction m with
  | nil => simp [mapInsert, mapLookup]
  | cons hd tl ih =>
    obtain ⟨k', v'⟩ := hd
    by_cases h : k' = k
    · simp [mapInsert, mapLookup, h]
    · simp [mapInsert, mapLookup, h, ih]

theorem getLatestTag_insert_self (m : StateMap) (owner repo : String)
    (v : ReleaseState) :
    GetLatestTag (mapInsert m (getKey owner repo) v) owner repo = v.latestTag := by
  simp [GetLatestTag, mapLookup_insert_self]

theorem tagUnchanged_insert_self (m : StateMap) (owner repo tag : String)
    (now : Nat) :
    tagUnchanged
      (mapInsert m (getKey owner repo)
        { owner := owner, repository := repo, latestTag := tag, lastNotified := now })
      (getKey owner repo) tag = true := by
  simp [tagUnchanged, mapLookup_insert_self]

/-- Once the ledger already holds `tag` for the key, every further identical
call is a no-op returning `false`. -/
theorem runSame_of_tagUnchanged (owner repo tag : String) (now : Nat)
    (n : Nat) (states : StateMap) (disk : Disk)
    (h : tagUnchanged states (getKey owner repo) tag = true) :
    runSame owner repo tag now n states disk =
      (List.replicate n false, states, disk) := by
  induction n with
  | zero => simp [runSame, List.replicate]
  | succ k ih =>
    simp only [runSame, CheckAndUpdateIfNew, h, if_true, ih, List.replicate]

/-- On the new-tag path with successful persistence, `CheckAndUpdateIfNew`
commits: it returns `(true, nil)`, stores the new record, and rewrites the
file with the updated snapshot. -/
theorem checkAndUpdate_commits (states : StateMap) (disk : Disk)
    (owner repo tag : String) (now : Nat)
    (hnew : tagUnchanged states (getKey owner repo) tag = false) :
    CheckAndUpdateIfNew .ok states disk owner repo tag now =
      { isNew := true, err := none,
        states := mapInsert states (getKey owner repo)
          { owner := owner, repository := repo, latestTag := tag, lastNotified := now },
        disk := some (mapInsert states (getKey owner repo)
          { owner := owner, repository := repo, latestTag := tag, lastNotified := now }) } := by
  simp [CheckAndUpdateIfNew, hnew]

/-- C1.  For every `n ≥ 1` calls to `CheckAndUpdateIfNew(owner, repo, tag)`
with identical arguments on a ledger that does not already hold this tag for
the identity, exactly one call (the first to enter the mutex-protected
critical section) returns `committed = true` and all others return `false`,
and afterwards `GetLatestTag(owner, repo) = tag`.  Concurrent execution is
modelled by sequentialisation: the whole method body runs under
`s.mu.Lock()`, so any schedule of the `n` identical calls executes them one
after another. -/
theorem checkAndUpdate_at_most_one_commit (owner repo tag : String)
    (now : Nat) (n : Nat) (states : StateMap) (disk : Disk)
    (hnew : tagUnchanged states (getKey owner repo) tag = false)
    (hn : 1 ≤ n) :
    (runSame owner repo tag now n states disk).1 =
      true :: List.replicate (n - 1) false ∧
    GetLatestTag (runSame owner repo tag now n states disk).2.1 owner repo = tag := by
  obtain ⟨m, rfl⟩ : ∃ m, n = m + 1 := ⟨n - 1, (Nat.succ_pred_eq_of_pos hn).symm⟩
  have hrun : runSame owner repo tag now (m + 1) states disk =
      (true :: List.replicate m false,
        mapInsert states (getKey owner repo)
          { owner := owner, repository := repo, latestTag := tag, lastNotified := now },
        some (mapInsert states (getKey owner repo)
          { owner := owner, repository := repo, latestTag := tag, lastNotified := now })) := by
    simp only [runSame, checkAndUpdate_commits states disk owner repo tag now hnew]
    rw [runSame_of_tagUnchanged _ _ _ _ _ _ _ (tagUnchanged_insert_self _ _ _ _ _)]
  refine ⟨?_, ?_⟩
  · rw [hrun]
    simp
  · rw [hrun]
    exact getLatestTag_insert_self _ _ _ _

/-- Concrete instance of C1 with three calls on an empty ledger. -/
theorem checkAndUpdate_at_most_one_commit_witness :
    (runSame "o" "r" "v1" 5 3 [] none).1 = true :: List.replicate (3 - 1) false ∧
    GetLatestTag (runSame "o" "r" "v1" 5 3 [] none).2.1 "o" "r" = "v1" :=
  checkAndUpdate_at_most_one_commit "o" "r" "v1" 5 3 [] none (by decide) (by decide)

/-- The three sequential calls of spec property 2 (`v1` → `v1` → `v2`). -/
def runThree (states : StateMap) (disk : Disk) (owner repo v1 v2 : String)
    (t1 t2 t3 : Nat) : CheckResult × CheckResult × CheckResult :=
  let s1 := CheckAndUpdateIfNew .ok states disk owner repo v1 t1
  let s2 := CheckAndUpdateIfNew .ok s1.states s1.disk owner repo v1 t2
  let s3 := CheckAndUpdateIfNew .ok s2.states s2.disk owner repo v2 t3
  (s1, s2, s3)

/-- C5.  For every identity with an initially absent record and tags
`v1 ≠ v2`, three sequential calls to `CheckAndUpdateIfNew` with tags
`v1`, `v1`, `v2` return `committed` = `true`, `false`, `true`, and the
ledger afterwards holds `v2` for that identity. -/
theorem checkAndUpdate_tag_change_detection (owner repo v1 v2 : String)
    (states : StateMap) (disk : Disk) (t1 t2 t3 : Nat)
    (habs : mapLookup states (getKey owner repo) = none)
    (hne : v1 ≠ v2) :
    (runThree states disk owner repo v1 v2 t1 t2 t3).1.isNew = true ∧
    (runThree states disk owner repo v1 v2 t1 t2 t3).2.1.isNew = false ∧
    (runThree states disk owner repo v1 v2 t1 t2 t3).2.2.isNew = true ∧
    GetLatestTag (runThree states disk owner repo v1 v2 t1 t2 t3).2.2.states
      owner repo = v2 := by
  have h1 : tagUnchanged states (getKey owner repo) v1 = false := by
    simp [tagUnchanged, habs]
  have hs1 := checkAndUpdate_commits states disk owner repo v1 t1 h1
  have h3 : tagUnchanged
      (mapInsert states (getKey owner repo)
        { owner := owner, repository := repo, latestTag := v1, lastNotified := t1 })
      (getKey owner repo) v2 = false := by
    simp [tagUnchanged, mapLookup_insert_self, hne]
  simp only [runThree, hs1]
  have hs2 : CheckAndUpdateIfNew .ok
      (mapInsert states (getKey owner repo)
        { owner := owner, repository := repo, latestTag := v1, lastNotified := t1 })
      (some (mapInsert states (getKey owner repo)
        { owner := owner, repository := repo, latestTag := v1, lastNotified := t1 }))
      owner repo v1 t2 =
      { isNew := false, err := none,
        states := mapInsert states (getKey owner repo)
          { owner := owner, repository := repo, latestTag := v1, lastNotified := t1 },
        disk := some (mapInsert states (getKey owner repo)
          { owner := owner, repository := repo, latestTag := v1, lastNotified := t1 }) } := by
    simp [CheckAndUpdateIfNew, tagUnchanged_insert_self]
  simp only [hs2]
  have hs3 := checkAndUpdate_commits
    (mapInsert states (getKey owner repo)
      { owner := owner, repository := repo, latestTag := v1, lastNotified := t1 })
    (some (mapInsert states (getKey owner repo)
      { owner := owner, repository := repo, latestTag := v1, lastNotified := t1 }))
    owner repo v2 t3 h3
  simp [hs3, getLatestTag_insert_self]

/-- Concrete instance of C5 on an empty ledger. -/
theorem checkAndUpdate_tag_change_detection_witness :
    (runThree [] none "o" "r" "v1" "v2" 1 2 3).1.isNew = true ∧
    (runThree [] none "o" "r" "v1" "v2" 1 2 3).2.1.isNew = false ∧
    (runThree [] none "o" "r" "v1" "v2" 1 2 3).2.2.isNew = true ∧
    GetLatestTag (runThree [] none "o" "r" "v1" "v2" 1 2 3).2.2.states
      "o" "r" = "v2" :=
  checkAndUpdate_tag_change_detection "o" "r" "v1" "v2" [] none 1 2 3 rfl
    (by decide)

/-- C6.  After a successful commit of `(owner="a", name="b", tag="v1.0.0")`
via `CheckAndUpdateIfNew`, constructing a new `StateStore` from the same
storage path (i.e. loading the rewritten state file) yields
`GetLatestTag("a", "b") = "v1.0.0"`: save then load round-trips the
committed state. -/
theorem persistence_round_trip (states : StateMap) (disk : Disk) (now : Nat)
    (hc : (CheckAndUpdateIfNew .ok states disk "a" "b" "v1.0.0" now).isNew = true) :
    GetLatestTag
      (NewStateStore (CheckAndUpdateIfNew .ok states disk "a" "b" "v1.0.0" now).disk)
      "a" "b" = "v1.0.0" := by
  cases htu : tagUnchanged states (getKey "a" "b") "v1.0.0" with
  | true =>
    exfalso
    rw [CheckAndUpdateIfNew] at hc
    simp only [htu, if_true] at hc
    exact Bool.false_ne_true hc
  | false =>
    rw [checkAndUpdate_commits states disk "a" "b" "v1.0.0" now htu]
    exact getLatestTag_insert_self _ _ _ _

/-- Concrete instance of C6 starting from an empty ledger and no state file. -/
theorem persistence_round_trip_witness :
    GetLatestTag
      (NewStateStore (CheckAndUpdateIfNew .ok [] none "a" "b" "v1.0.0" 7).disk)
      "a" "b" = "v1.0.0" :=
  persistence_round_trip [] none 7 (by decide)

/-- A reachable ledger state holding the empty tag for identity
`("a", "b")`: the result of committing tag `""` on an empty ledger. -/
def emptyTagState : StateMap :=
  (CheckAndUpdateIfNew .ok [] none "a" "b" "" 0).states

/-- C4 counterexample.  The claim "`IsNewRelease(owner, repo, tag)` returns
true iff no record exists for `(owner, repo)` or the stored tag differs from
`tag`" fails at the reachable state `emptyTagState` with `tag = ""`: a
record exists and its stored tag `""` equals `tag`, yet `IsNewRelease`
returns `true` (the code treats a stored empty tag like an absent record). -/
theorem isNewRelease_claim_counterexample :
    ¬ (IsNewRelease emptyTagState "a" "b" "" = true ↔
        (mapLookup emptyTagState (getKey "a" "b") = none ∨
          Option.map ReleaseState.latestTag
            (mapLookup emptyTagState (getKey "a" "b")) ≠ some "")) := by
  decide

/-- C4 amended.  `IsNewRelease(owner, repo, tag)` returns true iff the
stored tag for `(owner, repo)` — the empty string when no record exists —
is empty or differs from `tag`.  (The call is a pure read: in the embedding
it returns only a boolean and takes the ledger by value.) -/
theorem isNewRelease_amended (states : StateMap) (owner repo tag : String) :
    IsNewRelease states owner repo tag = true ↔
      (GetLatestTag states owner repo = "" ∨
        GetLatestTag states owner repo ≠ tag) := by
  simp [IsNewRelease]

/-- C3 counterexample.  On the new-tag path with a failing storage write
(`os.WriteFile` error), `CheckAndUpdateIfNew` keeps the in-memory update but
returns `(true, nil)`: the failure is NOT surfaced to the caller as a
non-nil error — it is only logged (store.go:165-166). -/
theorem write_failure_error_not_surfaced :
    (CheckAndUpdateIfNew .writeErr [] none "a" "b" "v1.0.0" 0).err = none ∧
    (CheckAndUpdateIfNew .writeErr [] none "a" "b" "v1.0.0" 0).isNew = true ∧
    GetLatestTag (CheckAndUpdateIfNew .writeErr [] none "a" "b" "v1.0.0" 0).states
      "a" "b" = "v1.0.0" := by
  decide

/-- C3 amended.  On the new-tag path, a persistence failure never reverts
the in-memory record (it holds the new tag afterwards) and never rewrites
the state file; a serialization failure is surfaced as a non-nil error with
`committed = false`, while a storage-write failure is only logged: the call
returns `committed = true` with a nil error. -/
theorem commit_persistence_failure_semantics (po : PersistOutcome)
    (states : StateMap) (disk : Disk) (owner repo tag : String) (now : Nat)
    (hnew : tagUnchanged states (getKey owner repo) tag = false) :
    GetLatestTag (CheckAndUpdateIfNew po states disk owner repo tag now).states
      owner repo = tag ∧
    (po ≠ .ok →
      (CheckAndUpdateIfNew po states disk owner repo tag now).disk = disk) ∧
    (po = .marshalErr →
      (CheckAndUpdateIfNew po states disk owner repo tag now).err ≠ none ∧
      (CheckAndUpdateIfNew po states disk owner repo tag now).isNew = false) ∧
    (po = .writeErr →
      (CheckAndUpdateIfNew po states disk owner repo tag now).err = none ∧
      (CheckAndUpdateIfNew po states disk owner repo tag now).isNew = true) := by
  cases po <;>
    simp [CheckAndUpdateIfNew, hnew, getLatestTag_insert_self]

/-- Concrete instance of the amended C3 with a failing serialization step. -/
theorem commit_persistence_failure_semantics_witness :
    GetLatestTag
      (CheckAndUpdateIfNew .marshalErr [] none "a" "b" "v2" 3).states
      "a" "b" = "v2" ∧
    (PersistOutcome.marshalErr ≠ PersistOutcome.ok →
      (CheckAndUpdateIfNew .marshalErr [] none "a" "b" "v2" 3).disk = none) ∧
    (PersistOutcome.marshalErr = PersistOutcome.marshalErr →
      (CheckAndUpdateIfNew .marshalErr [] none "a" "b" "v2" 3).err ≠ none ∧
      (CheckAndUpdateIfNew .marshalErr [] none "a" "b" "v2" 3).isNew = false) ∧
    (PersistOutcome.marshalErr = PersistOutcome.writeErr →
      (CheckAndUpdateIfNew .marshalErr [] none "a" "b" "v2" 3).err = none ∧
      (CheckAndUpdateIfNew .marshalErr [] none "a" "b" "v2" 3).isNew = true) :=
  commit_persistence_failure_semantics .marshalErr [] none "a" "b" "v2" 3
    (by decide)

/-- C10.  The ledger addresses records solely by the joined string
`owner ++ "/" ++ name`, which is not injective: `("a/b", "c")` and
`("a", "b/c")` are distinct identities with equal keys, and for any two
identities with equal keys, a commit for one changes `IsNewRelease` and
`GetLatestTag` for the other — they share one record. -/
theorem joined_key_aliasing :
    (getKey "a/b" "c" = getKey "a" "b/c" ∧ ("a/b", "c") ≠ ("a", "b/c")) ∧
    ∀ (o1 r1 o2 r2 : String), getKey o1 r1 = getKey o2 r2 →
      ∀ (states : StateMap) (disk : Disk) (tag : String) (now : Nat),
        tag ≠ "" →
        GetLatestTag states o2 r2 ≠ tag →
        IsNewRelease states o2 r2 tag = true ∧
        GetLatestTag (CheckAndUpdateIfNew .ok states disk o1 r1 tag now).states
          o2 r2 = tag ∧
        IsNewRelease (CheckAndUpdateIfNew .ok states disk o1 r1 tag now).states
          o2 r2 tag = false := by
  refine ⟨⟨by decide, by decide⟩, ?_⟩
  intro o1 r1 o2 r2 hkey states disk tag now htag hprev
  have htu : tagUnchanged states (getKey o1 r1) tag = false := by
    rw [hkey]
    unfold tagUnchanged
    cases hl : mapLookup states (getKey o2 r2) with
    | none => rfl
    | some cur =>
      have hne : cur.latestTag ≠ tag := by
        intro h
        apply hprev
        simp [GetLatestTag, hl, h]
      simp [hne]
  have hbefore : IsNewRelease states o2 r2 tag = true := by
    simp [IsNewRelease]
    right
    exact hprev
  rw [checkAndUpdate_commits states disk o1 r1 tag now htu]
  have hg : GetLatestTag
      (mapInsert states (getKey o1 r1)
        { owner := o1, repository := r1, latestTag := tag, lastNotified := now })
      o2 r2 = tag := by
    unfold GetLatestTag
    rw [← hkey]
    simp [mapLookup_insert_self]
  refine ⟨hbefore, hg, ?_⟩
  simp [IsNewRelease, hg, htag]

/-- Concrete instance of C10 at the aliased identities `("a/b", "c")` and
`("a", "b/c")` on an empty ledger. -/
theorem joined_key_aliasing_witness :
    IsNewRelease [] "a" "b/c" "v1.0.0" = true ∧
    GetLatestTag (CheckAndUpdateIfNew .ok [] none "a/b" "c" "v1.0.0" 0).states
      "a" "b/c" = "v1.0.0" ∧
    IsNewRelease (CheckAndUpdateIfNew .ok [] none "a/b" "c" "v1.0.0" 0).states
      "a" "b/c" "v1.0.0" = false :=
  joined_key_aliasing.2 "a/b" "c" "a" "b/c" rfl [] none "v1.0.0" 0
    (by decide) (by decide)

/-! ## Fetch orchestrator (`pkg/github/github.go`) -/

/-- Embedding of `github.ReleaseInfo`: the transient per-release record. -/
structure ReleaseInfo where
  owner : String
  repository : String
  tagName : String
  name : String
  description : String
  htmlURL : String
  publishedAt : Int
  deriving DecidableEq, Repr

/-- Oracle for one `Repositories.GetLatestRelease` API call:
`ok` = HTTP 200 with the release's fields, `notFound` = error with
HTTP 404 (repository has no release), `fetchErr` = any other error with
message `msg`. -/
inductive FetchOutcome where
  | ok (tag : String) (published : Int) (name htmlURL body : String)
  | notFound
  | fetchErr (msg : String)
  deriving DecidableEq, Repr

/-- `c == d` on characters, lifted to "needle is a prefix of haystack". -/
def startsWithChars : List Char → List Char → Bool
  | _, [] => true
  | [], _ :: _ => false
  | c :: cs, d :: ds => c == d && startsWithChars cs ds

/-- Substring occurrence on character lists. -/
def occursIn : List Char → List Char → Bool
  | [], needle => needle.isEmpty
  | hay :: rest, needle =>
    startsWithChars (hay :: rest) needle || occursIn rest needle

/-- Embedding of Go `strings.Contains(s, sub)`. -/
def containsSubstring (s sub : String) : Bool := occursIn s.data sub.data

/-- The freshness window of `GetLatestRelease` (github.go:70-78): seven
days, measured in seconds. -/
def sevenDays : Int := 7 * 86400

/-- Instrumented result of one `Client.GetLatestRelease` call: the returned
`(release, err)` pair, whether the ledger novelty check (`IsNewRelease`)
was invoked, and the post-state of the ledger. -/
structure FetchStep where
  release : Option ReleaseInfo
  err : Option String
  ledgerChecked : Bool
  states : StateMap
  disk : Disk
  deriving DecidableEq, Repr

/-- Embedding of `Client.GetLatestRelease` (github.go:56-106).  A 404
yields `(nil, nil)`; any other fetch error is wrapped and returned; a
release published before `now - sevenDays` is dropped before the ledger is
consulted; otherwise `IsNewRelease` decides, and on a new tag
`UpdateState` commits (its save is modelled as succeeding; on failure the
code only logs and continues). -/
def getLatestRelease (fetched : FetchOutcome) (now : Int) (states : StateMap)
    (disk : Disk) (owner repo : String) (showDescription : Bool)
    (storeNow : Nat) : FetchStep :=
  match fetched with
  | .notFound =>
    { release := none, err := none, ledgerChecked := false,
      states := states, disk := disk }
  | .fetchErr msg =>
    { release := none, err := some ("获取最新版本失败: " ++ msg),
      ledgerChecked := false, states := states, disk := disk }
  | .ok tag published name htmlURL body =>
    if published < now - sevenDays then
      { release := none, err := none, ledgerChecked := false,
        states := states, disk := disk }
    else if !(IsNewRelease states owner repo tag) then
      { release := none, err := none, ledgerChecked := true,
        states := states, disk := disk }
    else
      let saved := UpdateState states owner repo tag storeNow
      { release := some
          { owner := owner, repository := repo, tagName := tag, name := name,
            description := if showDescription then body else "",
            htmlURL := htmlURL, publishedAt := published },
        err := none, ledgerChecked := true,
        states := saved.1, disk := saved.2 }

/-- One repository to check, paired with the oracle outcome of its
upstream lookup. -/
structure RepoTask where
  owner : String
  name : String
  fetched : FetchOutcome
  deriving DecidableEq, Repr

/-- The shared mutable accumulators of `CheckForNewReleases`
(github.go:257-264) plus an instrumentation field `dispatched` recording
which repositories a lookup was actually issued for. -/
structure CheckAcc where
  results : List ReleaseInfo
  noReleaseCount : Nat
  errorCount : Nat
  rateLimitHit : Bool
  states : StateMap
  disk : Disk
  dispatched : List (String × String)
  deriving DecidableEq, Repr

/-- The upstream rate-limit signature matched by `CheckForNewReleases`
(github.go:286): `strings.Contains(err.Error(), "rate limit exceeded")`. -/
def rateLimitSignature : String := "rate limit exceeded"

/-- Embedding of the `checkRepo` closure of `CheckForNewReleases`
(github.go:276-304): issue the lookup, then under the mutex either raise
the halt flag on a rate-limit error (without counting it as a failure),
count any other error, append a non-nil release to `results`, or count a
nil release as "no qualifying release". -/
def checkRepo (now : Int) (storeNow : Nat) (showDescription : Bool)
    (t : RepoTask) (acc : CheckAcc) : CheckAcc :=
  let step := getLatestRelease t.fetched now acc.states acc.disk t.owner
    t.name showDescription storeNow
  let acc := { acc with
      dispatched := acc.dispatched ++ [(t.owner, t.name)],
      states := step.states,
      disk := step.disk }
  match step.err with
  | some msg =>
    if containsSubstring msg rateLimitSignature then
      { acc with rateLimitHit := true }
    else
      { acc with errorCount := acc.errorCount + 1 }
  | none =>
    match step.release with
    | some r => { acc with results := acc.results ++ [r] }
    | none => { acc with noReleaseCount := acc.noReleaseCount + 1 }

/-- Embedding of the dispatch loop of `CheckForNewReleases`
(github.go:307-348) under the sequential schedule (each dispatched lookup
completes before the next dispatch): before dispatching each repository the
halt flag is consulted, and once it is raised no further repository — in
the current batch or any later batch — is dispatched.  The batch structure
only inserts pauses between groups of dispatches, so the loop is the
per-task recursion with the pre-dispatch halt check. -/
def checkLoop (now : Int) (storeNow : Nat) (showDescription : Bool) :
    List RepoTask → CheckAcc → CheckAcc
  | [], acc => acc
  | t :: ts, acc =>
    if acc.rateLimitHit then acc
    else checkLoop now storeNow showDescription ts
      (checkRepo now storeNow showDescription t acc)

theorem checkLoop_of_hit (now : Int) (storeNow : Nat) (sd : Bool)
    (l : List RepoTask) (acc : CheckAcc) (h : acc.rateLimitHit = true) :
    checkLoop now storeNow sd l acc = acc := by
  cases l with
  | nil => rfl
  | cons t ts => simp [checkLoop, h]

theorem checkLoop_append (now : Int) (storeNow : Nat) (sd : Bool)
    (l1 l2 : List RepoTask) (acc : CheckAcc) :
    checkLoop now storeNow sd (l1 ++ l2) acc =
      checkLoop now storeNow sd l2 (checkLoop now storeNow sd l1 acc) := by
  induction l1 generalizing acc with
  | nil => simp [checkLoop]
  | cons t ts ih =>
    cases h : acc.rateLimitHit with
    | true => simp [checkLoop, h, checkLoop_of_hit now storeNow sd l2 acc h]
    | false => simp [checkLoop, h, ih]

/-- C7.  For every repository checked by the fetch orchestrator: if the
fetched release's publish timestamp falls outside the freshness window, or
no release exists (404), then the ledger novelty check is never invoked,
the ledger is unchanged, and the repository contributes nothing to the
returned release set — regardless of whether its tag would have been new. -/
theorem freshness_filter (fetched : FetchOutcome) (now : Int) (storeNow : Nat)
    (sd : Bool) (states : StateMap) (disk : Disk) (owner repo : String)
    (hstale : fetched = .notFound ∨
      ∃ tag published name htmlURL body,
        fetched = .ok tag published name htmlURL body ∧
          published < now - sevenDays) :
    (getLatestRelease fetched now states disk owner repo sd storeNow).ledgerChecked
        = false ∧
    (getLatestRelease fetched now states disk owner repo sd storeNow).release
        = none ∧
    (getLatestRelease fetched now states disk owner repo sd storeNow).states
        = states ∧
    (getLatestRelease fetched now states disk owner repo sd storeNow).disk
        = disk ∧
    ∀ acc : CheckAcc,
      (checkRepo now storeNow sd ⟨owner, repo, fetched⟩ acc).results
        = acc.results := by
  rcases hstale with h | ⟨tag, published, name, htmlURL, body, h, hlt⟩
  · subst h
    exact ⟨rfl, rfl, rfl, rfl, fun acc => by simp [checkRepo, getLatestRelease]⟩
  · subst h
    refine ⟨?_, ?_, ?_, ?_, fun acc => ?_⟩ <;>
      simp [getLatestRelease, checkRepo, hlt]

/-- Concrete instance of C7: a release published at time 0 checked at time
10^7 (far outside the window) against an empty ledger, where its tag would
have been new. -/
theorem freshness_filter_witness :
    (getLatestRelease (.ok "v9.9.9" 0 "n" "u" "b") 10000000 [] none
        "o" "r" true 0).ledgerChecked = false ∧
    (getLatestRelease (.ok "v9.9.9" 0 "n" "u" "b") 10000000 [] none
        "o" "r" true 0).release = none ∧
    (getLatestRelease (.ok "v9.9.9" 0 "n" "u" "b") 10000000 [] none
        "o" "r" true 0).states = [] ∧
    (getLatestRelease (.ok "v9.9.9" 0 "n" "u" "b") 10000000 [] none
        "o" "r" true 0).disk = none ∧
    (checkRepo 10000000 0 true ⟨"o", "r", .ok "v9.9.9" 0 "n" "u" "b"⟩
        ⟨[], 0, 0, false, [], none, []⟩).results = [] := by
  have h := freshness_filter (.ok "v9.9.9" 0 "n" "u" "b") 10000000 0 true
    [] none "o" "r"
    (Or.inr ⟨"v9.9.9", 0, "n", "u", "b", rfl, by decide⟩)
  exact ⟨h.1, h.2.1, h.2.2.1, h.2.2.2.1, h.2.2.2.2 ⟨[], 0, 0, false, [], none, []⟩⟩

/-- C8.  If a lookup reports the upstream rate-limit signal during a run of
the fetch orchestrator, then after the halt flag is raised no lookup is
dispatched for any repository not yet dispatched (including all later
batches), and every result and counter collected before the halt is
preserved in the returned accumulator: the final state is the pre-halt
state with only the halting repository added to the dispatched list and the
halt flag raised. -/
theorem halt_on_throttle (now : Int) (storeNow : Nat) (sd : Bool)
    (pre post : List RepoTask) (t : RepoTask) (acc0 : CheckAcc) (msg : String)
    (hpre : (checkLoop now storeNow sd pre acc0).rateLimitHit = false)
    (ht : t.fetched = .fetchErr msg)
    (hmsg : containsSubstring ("获取最新版本失败: " ++ msg) rateLimitSignature
      = true) :
    checkLoop now storeNow sd (pre ++ t :: post) acc0 =
      { checkLoop now storeNow sd pre acc0 with
          rateLimitHit := true,
          dispatched := (checkLoop now storeNow sd pre acc0).dispatched
            ++ [(t.owner, t.name)] } := by
  rw [checkLoop_append]
  have hstep : checkRepo now storeNow sd t (checkLoop now storeNow sd pre acc0) =
      { checkLoop now storeNow sd pre acc0 with
          rateLimitHit := true,
          dispatched := (checkLoop now storeNow sd pre acc0).dispatched
            ++ [(t.owner, t.name)] } := by
    simp [checkRepo, getLatestRelease, ht, hmsg]
  simp only [checkLoop, hpre, Bool.false_eq_true, if_false, hstep]
  exact checkLoop_of_hit now storeNow sd post _ rfl

/-- Concrete instance of C8: three repositories, the second hitting the
GitHub rate limit; the third is never dispatched and the first's result
survives. -/
theorem halt_on_throttle_witness :
    checkLoop 1000000 0 false
      ([⟨"o1", "r1", .ok "v1" 999000 "n" "u" "b"⟩] ++
        ⟨"o2", "r2", .fetchErr "403 API rate limit exceeded for user"⟩ ::
        [⟨"o3", "r3", .ok "v3" 999000 "n" "u" "b"⟩])
      ⟨[], 0, 0, false, [], none, []⟩ =
      { checkLoop 1000000 0 false [⟨"o1", "r1", .ok "v1" 999000 "n" "u" "b"⟩]
          ⟨[], 0, 0, false, [], none, []⟩ with
          rateLimitHit := true,
          dispatched := (checkLoop 1000000 0 false
            [⟨"o1", "r1", .ok "v1" 999000 "n" "u" "b"⟩]
            ⟨[], 0, 0, false, [], none, []⟩).dispatched ++ [("o2", "r2")] } :=
  halt_on_throttle 1000000 0 false
    [⟨"o1", "r1", .ok "v1" 999000 "n" "u" "b"⟩]
    [⟨"o3", "r3", .ok "v3" 999000 "n" "u" "b"⟩]
    ⟨"o2", "r2", .fetchErr "403 API rate limit exceeded for user"⟩
    ⟨[], 0, 0, false, [], none, []⟩
    "403 API rate limit exceeded for user"
    (by decide) rfl (by decide)

/-! ## Channel rate governor (`pkg/notifier/dingtalk/dingtalk.go`;
`pkg/notifier/telegram/telegram.go` has the same structure with a
one-minute cooldown) -/

/-- The per-channel cooldown state (`Notifier.cooldown`): the `active`
flag and the expiry instant `until`. -/
structure Cooldown where
  active : Bool
  untilTime : Nat
  deriving DecidableEq, Repr

/-- Embedding of `Notifier.canSendMessage` (dingtalk.go:86-100): inside an
active, unexpired cooldown, refuse and report the remaining wait, leaving
the state untouched; otherwise clear the flag and allow. -/
def canSendMessage (c : Cooldown) (now : Nat) : (Bool × Nat) × Cooldown :=
  if c.active = true ∧ now < c.untilTime then
    ((false, c.untilTime - now), c)
  else
    ((true, 0), { c with active := false })

/-- Embedding of `Notifier.setCooldown` (dingtalk.go:103-109): enter the
cooldown state until `now + duration`. -/
def setCooldown (c : Cooldown) (now dur : Nat) : Cooldown :=
  { c with active := true, untilTime := now + dur }

/-- C9.  After the governor enters cooldown at `t0` for duration `d`
(`reportThrottled`, i.e. `setCooldown` — dingtalk uses `d` = 10 minutes),
every acquisition attempt strictly before `t0 + d` returns `false` with
the remaining wait and leaves the state unchanged; the first attempt at or
after expiry clears the flag and allows again (returning to normal token
accounting); and no transition other than Idle→Cooldown on a throttle
signal and Cooldown→Idle on expiry occurs: `canSendMessage` either leaves
the state unchanged or clears the `active` flag, and `setCooldown` always
raises it. -/
theorem cooldown_state_machine (c : Cooldown) (t0 d : Nat) :
    (∀ t, t < t0 + d →
      canSendMessage (setCooldown c t0 d) t =
        ((false, t0 + d - t), setCooldown c t0 d)) ∧
    (∀ t, t0 + d ≤ t →
      canSendMessage (setCooldown c t0 d) t =
        ((true, 0), { active := false, untilTime := t0 + d })) ∧
    (setCooldown c t0 d).active = true ∧
    (∀ (c' : Cooldown) (t : Nat),
      (canSendMessage c' t).2 = c' ∨
      (canSendMessage c' t).2 = { c' with active := false }) := by
  refine ⟨?_, ?_, rfl, ?_⟩
  · intro t ht
    simp [canSendMessage, setCooldown, ht]
  · intro t ht
    simp [canSendMessage, setCooldown, Nat.not_lt.2 ht]
  · intro c' t
    unfold canSendMessage
    split
    · exact Or.inl rfl
    · exact Or.inr rfl

/-- Concrete instance of C9: cooldown entered at time 100 for 600 seconds
(10 minutes); an attempt at time 300 is refused with 400 seconds left, an
attempt at time 700 is allowed and clears the flag. -/
theorem cooldown_state_machine_witness :
    canSendMessage (setCooldown ⟨false, 0⟩ 100 600) 300 =
      ((false, 100 + 600 - 300), setCooldown ⟨false, 0⟩ 100 600) ∧
    canSendMessage (setCooldown ⟨false, 0⟩ 100 600) 700 =
      ((true, 0), ⟨false, 100 + 600⟩) ∧
    (setCooldown ⟨false, 0⟩ 100 600).active = true :=
  ⟨(cooldown_state_machine ⟨false, 0⟩ 100 600).1 300 (by decide),
   (cooldown_state_machine ⟨false, 0⟩ 100 600).2.1 700 (by decide),
   (cooldown_state_machine ⟨false, 0⟩ 100 600).2.2.1⟩

/-! ## Dispatch manager (`pkg/notifier/notifier.go`) -/

/-- Transport oracle outcome of one webhook POST: delivered, a provider
rate-limit response (dingtalk errcode 88 / HTTP 429), or another failure. -/
inductive TransportResult where
  | delivered
  | throttle
  | httpErr (msg : String)
  deriving DecidableEq, Repr

/-- One outbound channel: enabled flag, the provider's documented cooldown
duration (dingtalk: 10 minutes, telegram: 1 minute) and its governor
state. -/
structure Channel where
  enabled : Bool
  cooldownDur : Nat
  cd : Cooldown
  deriving DecidableEq, Repr

/-- The provider rate-limit error text (dingtalk.go:200). -/
def throttleMsg : String := "频率超过限制"

/-- Embedding of `Manager.isRateLimitError` (notifier.go:154-159). -/
def isRateLimitError (msg : String) : Bool :=
  containsSubstring msg "频率超过限制" ||
  containsSubstring msg "rate limit" ||
  containsSubstring msg "too many requests"

/-- Embedding of `Notifier.Send` (dingtalk.go:112-143; the telegram Send
has the same shape): refuse fast inside an active cooldown with a
rate-limit classified message and no delivery; otherwise attempt the
transport, where a provider throttle response enters a cooldown of the
channel's documented duration and returns a rate-limit classified error,
and any other failure is returned as-is.  The token-bucket `limiter.Wait`
only paces the call and is modelled as granting; template rendering is
modelled as succeeding.  Returns `((error?, delivered?), channel')`. -/
def channelSend (c : Channel) (now : Nat) (tres : TransportResult) :
    (Option String × Bool) × Channel :=
  let can := canSendMessage c.cd now
  if can.1.1 = false then
    ((some ("消息发送" ++ throttleMsg ++ "，冷却中"), false),
      { c with cd := can.2 })
  else
    match tres with
    | .delivered => ((none, true), { c with cd := can.2 })
    | .throttle =>
      ((some ("触发API限流，已设置冷却期: " ++ throttleMsg), false),
        { c with cd := setCooldown can.2 now c.cooldownDur })
    | .httpErr msg => ((some msg, false), { c with cd := can.2 })

/-- Embedding of the inner loop of `Manager.sendBatch` (notifier.go:122-148)
for one release: every enabled channel is attempted in order; a rate-limit
classified error is wrapped as `"速率限制: " ++ err` (after a pacing sleep),
any other error is collected as-is, and in every case the loop continues
with the next channel — the manager never aborts the run.  Returns the
delivery events `(channel index, release)`, the collected errors, and the
updated channels. -/
def runRelease (now : Nat) (tr : Nat → ReleaseInfo → TransportResult)
    (r : ReleaseInfo) :
    List (Nat × Channel) →
      List (Nat × ReleaseInfo) × List String × List (Nat × Channel)
  | [] => ([], [], [])
  | (i, c) :: cs =>
    if c.enabled = false then
      let rest := runRelease now tr r cs
      (rest.1, rest.2.1, (i, c) :: rest.2.2)
    else
      let s := channelSend c now (tr i r)
      let rest := runRelease now tr r cs
      ((if s.1.2 then [(i, r)] else []) ++ rest.1,
        (match s.1.1 with
          | some m => [if isRateLimitError m then "速率限制: " ++ m else m]
          | none => []) ++ rest.2.1,
        (i, s.2) :: rest.2.2)

/-- Embedding of a dispatch run: `Manager.NotifyAll` feeds the release list
release-by-release through `sendBatch`, threading the channel states; the
batch boundaries only insert pacing pauses, so under the frozen-clock
abstraction (the run is short relative to the cooldown durations) the run
is this release loop. -/
def runReleases (now : Nat) (tr : Nat → ReleaseInfo → TransportResult) :
    List ReleaseInfo → List (Nat × Channel) →
      List (Nat × ReleaseInfo) × List String × List (Nat × Channel)
  | [], cs => ([], [], cs)
  | r :: rs, cs =>
    let first := runRelease now tr r cs
    let rest := runReleases now tr rs first.2.2
    (first.1 ++ rest.1, first.2.1 ++ rest.2.1, rest.2.2)

theorem runRelease_both_idle_delivered (now dA dB uA uB : Nat)
    (tr : Nat → ReleaseInfo → TransportResult) (r : ReleaseInfo)
    (hA : tr 0 r = .delivered) (hB : tr 1 r = .delivered) :
    (runRelease now tr r
        [(0, ⟨true, dA, ⟨false, uA⟩⟩), (1, ⟨true, dB, ⟨false, uB⟩⟩)]).1 =
      [(0, r), (1, r)] ∧
    (runRelease now tr r
        [(0, ⟨true, dA, ⟨false, uA⟩⟩), (1, ⟨true, dB, ⟨false, uB⟩⟩)]).2.2 =
      [(0, ⟨true, dA, ⟨false, uA⟩⟩), (1, ⟨true, dB, ⟨false, uB⟩⟩)] := by
  constructor <;> simp [runRelease, channelSend, canSendMessage, hA, hB]

theorem runReleases_all_delivered (now dA dB uA uB : Nat)
    (tr : Nat → ReleaseInfo → TransportResult) (pre : List ReleaseInfo)
    (hA : ∀ r ∈ pre, tr 0 r = .delivered)
    (hB : ∀ r ∈ pre, tr 1 r = .delivered) :
    (runReleases now tr pre
        [(0, ⟨true, dA, ⟨false, uA⟩⟩), (1, ⟨true, dB, ⟨false, uB⟩⟩)]).1 =
      pre.flatMap (fun r => [(0, r), (1, r)]) ∧
    (runReleases now tr pre
        [(0, ⟨true, dA, ⟨false, uA⟩⟩), (1, ⟨true, dB, ⟨false, uB⟩⟩)]).2.2 =
      [(0, ⟨true, dA, ⟨false, uA⟩⟩), (1, ⟨true, dB, ⟨false, uB⟩⟩)] := by
  induction pre with
  | nil => simp [runReleases]
  | cons r rs ih =>
    obtain ⟨h1, h2⟩ := runRelease_both_idle_delivered now dA dB uA uB tr r
      (hA r (by simp)) (hB r (by simp))
    obtain ⟨ih1, ih2⟩ := ih (fun x hx => hA x (by simp [hx]))
      (fun x hx => hB x (by simp [hx]))
    simp only [runReleases, h1, h2, ih1, ih2]
    simp

theorem runRelease_throttled_step (now dA dB uA uB : Nat)
    (tr : Nat → ReleaseInfo → TransportResult) (rk : ReleaseInfo)
    (hA : tr 0 rk = .throttle) (hB : tr 1 rk = .delivered) :
    (runRelease now tr rk
        [(0, ⟨true, dA, ⟨false, uA⟩⟩), (1, ⟨true, dB, ⟨false, uB⟩⟩)]).1 =
      [(1, rk)] ∧
    (runRelease now tr rk
        [(0, ⟨true, dA, ⟨false, uA⟩⟩), (1, ⟨true, dB, ⟨false, uB⟩⟩)]).2.2 =
      [(0, ⟨true, dA, ⟨true, now + dA⟩⟩), (1, ⟨true, dB, ⟨false, uB⟩⟩)] := by
  constructor <;>
    simp [runRelease, channelSend, canSendMessage, setCooldown, hA, hB]

theorem runReleases_a_cooled (now dA dB uB untilA : Nat)
    (tr : Nat → ReleaseInfo → TransportResult) (rest : List ReleaseInfo)
    (hB : ∀ r ∈ rest, tr 1 r = .delivered) (hcool : now < untilA) :
    (runReleases now tr rest
        [(0, ⟨true, dA, ⟨true, untilA⟩⟩), (1, ⟨true, dB, ⟨false, uB⟩⟩)]).1 =
      rest.map (fun r => (1, r)) ∧
    (runReleases now tr rest
        [(0, ⟨true, dA, ⟨true, untilA⟩⟩), (1, ⟨true, dB, ⟨false, uB⟩⟩)]).2.2 =
      [(0, ⟨true, dA, ⟨true, untilA⟩⟩), (1, ⟨true, dB, ⟨false, uB⟩⟩)] := by
  induction rest with
  | nil => simp [runReleases]
  | cons r rs ih =>
    have h1 : (runRelease now tr r
        [(0, ⟨true, dA, ⟨true, untilA⟩⟩), (1, ⟨true, dB, ⟨false, uB⟩⟩)]).1 =
        [(1, r)] := by
      simp [runRelease, channelSend, canSendMessage, hcool, hB r (by simp)]
    have h2 : (runRelease now tr r
        [(0, ⟨true, dA, ⟨true, untilA⟩⟩), (1, ⟨true, dB, ⟨false, uB⟩⟩)]).2.2 =
        [(0, ⟨true, dA, ⟨true, untilA⟩⟩), (1, ⟨true, dB, ⟨false, uB⟩⟩)] := by
      simp [runRelease, channelSend, canSendMessage, hcool, hB r (by simp)]
    obtain ⟨ih1, ih2⟩ := ih (fun x hx => hB x (by simp [hx]))
    simp only [runReleases, h1, h2, ih1, ih2]
    simp

theorem runReleases_split (now : Nat)
    (tr : Nat → ReleaseInfo → TransportResult)
    (l1 l2 : List ReleaseInfo) (cs : List (Nat × Channel)) :
    (runReleases now tr (l1 ++ l2) cs).1 =
      (runReleases now tr l1 cs).1 ++
        (runReleases now tr l2 (runReleases now tr l1 cs).2.2).1 ∧
    (runReleases now tr (l1 ++ l2) cs).2.2 =
      (runReleases now tr l2 (runReleases now tr l1 cs).2.2).2.2 := by
  induction l1 generalizing cs with
  | nil => simp [runReleases]
  | cons r rs ih =>
    simp only [List.cons_append, runReleases, List.append_eq]
    refine ⟨?_, ?_⟩
    · rw [(ih (runRelease now tr r cs).2.2).1, List.append_assoc]
    · exact (ih (runRelease now tr r cs).2.2).2

/-- C2.  When the delivery of release `rk` to channel 0 fails with a
rate-limit classified error during a dispatch run (the provider reports a
throttle, entering that channel's cooldown), only the remaining deliveries
to channel 0 are skipped for the rest of the run, while channel 1 — the
other enabled channel — still receives `rk` and all remaining releases
(`Manager.sendBatch` collects the error and continues; the skipping of
channel 0 is enforced by its governor's cooldown).  Both channels start
idle and channel 0's cooldown duration is positive; the run is modelled
under a frozen clock (it is short relative to the cooldown duration). -/
theorem channel_isolation (now dA dB uA uB : Nat)
    (tr : Nat → ReleaseInfo → TransportResult)
    (pre rest : List ReleaseInfo) (rk : ReleaseInfo)
    (hdA : 0 < dA)
    (hApre : ∀ r ∈ pre, tr 0 r = .delivered)
    (hAk : tr 0 rk = .throttle)
    (hB : ∀ r ∈ pre ++ rk :: rest, tr 1 r = .delivered) :
    (runReleases now tr (pre ++ rk :: rest)
        [(0, ⟨true, dA, ⟨false, uA⟩⟩), (1, ⟨true, dB, ⟨false, uB⟩⟩)]).1 =
      pre.flatMap (fun r => [(0, r), (1, r)]) ++
        (rk :: rest).map (fun r => (1, r)) := by
  obtain ⟨hall1, hall2⟩ := runReleases_all_delivered now dA dB uA uB tr pre
    hApre (fun r hr => hB r (by simp [hr]))
  obtain ⟨hsp1, _⟩ := runReleases_split now tr pre (rk :: rest)
    [(0, ⟨true, dA, ⟨false, uA⟩⟩), (1, ⟨true, dB, ⟨false, uB⟩⟩)]
  rw [hsp1, hall1, hall2]
  obtain ⟨hk1, hk2⟩ := runRelease_throttled_step now dA dB uA uB tr rk hAk
    (hB rk (by simp))
  obtain ⟨hc1, _⟩ := runReleases_a_cooled now dA dB uB (now + dA) tr rest
    (fun r hr => hB r (by simp [hr])) (Nat.lt_add_of_pos_right hdA)
  simp only [runReleases, hk1, hk2, hc1]
  simp

/-- Concrete instance of C2: two releases, channel 0 (cooldown 10 minutes)
throttled on the first; channel 1 (cooldown 1 minute) receives both, and
channel 0 delivers nothing further. -/
theorem channel_isolation_witness :
    (runReleases 1000 (fun i _ => if i = 0 then .throttle else .delivered)
        ([] ++ ⟨"oa", "ra", "v1", "na", "", "ua", 0⟩ ::
          [⟨"ob", "rb", "v2", "nb", "", "ub", 0⟩])
        [(0, ⟨true, 600, ⟨false, 0⟩⟩), (1, ⟨true, 60, ⟨false, 0⟩⟩)]).1 =
      ([] : List ReleaseInfo).flatMap (fun r => [(0, r), (1, r)]) ++
        (⟨"oa", "ra", "v1", "na", "", "ua", 0⟩ ::
          [⟨"ob", "rb", "v2", "nb", "", "ub", 0⟩]).map
          (fun r => ((1 : Nat), r)) :=
  channel_isolation 1000 600 60 0 0
    (fun i _ => if i = 0 then .throttle else .delivered)
    [] [⟨"ob", "rb", "v2", "nb", "", "ub", 0⟩]
    ⟨"oa", "ra", "v1", "na", "", "ua", 0⟩
    (by decide) (by simp) rfl (fun r _ => rfl)

end NotifySpec
